import Mathlib

/-!
Verification development for the molecule-mcp ChimeraX bridge
(chimerax_core.py, chimerax_server.py, chimerax_session.py,
chimerax_tools.py), shallowly embedded in Lean 4.

Conventions of the embedding:
* Python scalar values are `PyVal`; Python `str()` is `PyVal.toPyString`.
* Raised exceptions are `Except Exn`; a `try/except` block is an explicit
  `match` on the fallible step.  External effectful primitives (the XML-RPC
  proxy, `subprocess.Popen`, the filesystem, the clock) are supplied as
  oracle records, so a theorem quantified over the oracle holds for every
  behaviour of the environment.
* Time stamps and durations are natural numbers of abstract time units.
-/

/-- A Python scalar value (the argument values the dispatcher handles). -/
inductive PyVal where
  | pynone
  | pybool (b : Bool)
  | pyint (n : Int)
  | pystr (s : String)
deriving DecidableEq, Repr

/-- Python `str()` on a scalar value. -/
def PyVal.toPyString : PyVal → String
  | .pynone => "None"
  | .pybool true => "True"
  | .pybool false => "False"
  | .pyint n => toString n
  | .pystr s => s

/-- Python `isinstance(v, str)`. -/
def PyVal.isStr : PyVal → Bool
  | .pystr _ => true
  | _ => false

/-- A raised Python exception, reduced to its `str(e)` text. -/
structure Exn where
  msg : String
deriving DecidableEq, Repr

/-- Python `sub in s` substring test (for a non-empty `sub`). -/
def strContains (s sub : String) : Bool :=
  2 ≤ (s.splitOn sub).length

/-- Python `s.startswith(p)`, computed on the character lists. -/
def strStartsWith (s p : String) : Bool :=
  decide (s.data.take p.data.length = p.data)

/-- Python slicing `s[n:]`, computed on the character list. -/
def strDrop (s : String) (n : Nat) : String :=
  String.mk (s.data.drop n)

/-- Python `" ".join(parts)`. -/
def spaceJoin : List String → String
  | [] => ""
  | [x] => x
  | x :: xs => x ++ " " ++ spaceJoin xs

/-- Update `m[k] := v` in an insertion-ordered association list, the way a
Python `dict` assignment behaves (replace in place, else append). -/
def assocSet {α : Type} : List (String × α) → String → α → List (String × α)
  | [], k, v => [(k, v)]
  | (k', v') :: rest, k, v =>
    if k' = k then (k, v) :: rest else (k', v') :: assocSet rest k v

/-- Lookup `m.get(k)` in an association list. -/
def assocGet {α : Type} : List (String × α) → String → Option α
  | [], _ => none
  | (k', v') :: rest, k => if k' = k then some v' else assocGet rest k

/-- Delete key `k` from an association list (no-op when absent). -/
def assocDel {α : Type} (m : List (String × α)) (k : String) : List (String × α) :=
  m.filter (fun kv => kv.1 ≠ k)

/-! ## chimerax_session.py — the Session Tracker -/

/-- One entry of `ChimeraXSession.commands`
(`{"command": ..., "timestamp": ...}`, chimerax_session.py:87-90). -/
structure CommandEntry where
  command : String
  timestamp : Nat
deriving DecidableEq, Repr

/-- The fields `ChimeraXSession.__init__` creates (chimerax_session.py:16-24). -/
structure ChimeraXSession where
  active : Bool
  start_time : Option Nat
  port : Option Nat
  models : List PyVal
  commands : List CommandEntry
  session_file : Option String
  last_activity : Option Nat
  metadata : List (String × PyVal)
deriving DecidableEq, Repr

/-- A freshly constructed tracker (chimerax_session.py:16-24). -/
def ChimeraXSession.new : ChimeraXSession :=
  { active := false, start_time := none, port := none, models := [],
    commands := [], session_file := none, last_activity := none, metadata := [] }

/-- `ChimeraXSession.start` (chimerax_session.py:26-43): activates the record,
stamps start/last-activity and rebuilds the metadata snapshot. -/
def ChimeraXSession.start (s : ChimeraXSession) (port : Option Nat) (now : Nat)
    (platformName platformVersion pythonVersion : String) : ChimeraXSession :=
  { s with
    active := true
    start_time := some now
    port := port
    last_activity := some now
    metadata :=
      [("platform", PyVal.pystr platformName),
       ("platform_version", PyVal.pystr platformVersion),
       ("python_version", PyVal.pystr pythonVersion),
       ("start_time", PyVal.pyint now)] }

/-- `ChimeraXSession.stop` (chimerax_session.py:45-61): no-op when inactive;
otherwise stamps end metadata and clears active/start/port, keeping the
model and command history. -/
def ChimeraXSession.stop (s : ChimeraXSession) (now : Nat) : ChimeraXSession :=
  if s.active then
    { s with
      metadata :=
        assocSet (assocSet s.metadata "end_time" (PyVal.pyint now))
          "duration_seconds" (PyVal.pyint (now - s.start_time.getD 0))
      active := false
      start_time := none
      port := none }
  else s

/-- `ChimeraXSession.record_command` (chimerax_session.py:78-92): appends a
timestamped entry only while active, else drops the command silently. -/
def ChimeraXSession.record_command (s : ChimeraXSession) (cmd : String) (now : Nat) :
    ChimeraXSession :=
  if s.active then
    { s with
      last_activity := some now
      commands := s.commands ++ [{ command := cmd, timestamp := now }] }
  else s

/-- The JSON document `save_to_file` writes / `load_from_file` reads
(chimerax_session.py:140-148, 163-170).  Every field is optional because the
loader reads each key with `dict.get`. -/
structure SessionFileData where
  active : Option Bool
  start_time : Option Nat
  models : Option (List PyVal)
  commands : Option (List CommandEntry)
  session_file : Option String
  metadata : Option (List (String × PyVal))
deriving DecidableEq, Repr

/-- `ChimeraXSession.save_to_file` (chimerax_session.py:133-158), reduced to
the document it serializes (the file write itself is external I/O). -/
def ChimeraXSession.save_to_file (s : ChimeraXSession) : SessionFileData :=
  { active := some s.active
    start_time := s.start_time
    models := some s.models
    commands := some s.commands
    session_file := s.session_file
    metadata := some s.metadata }

/-- `ChimeraXSession.load_from_file` (chimerax_session.py:160-177): `parsed`
is the outcome of opening and JSON-decoding the file; on failure the method
returns `False` leaving the tracker untouched, on success it restores only
models, commands, session_file and metadata. -/
def ChimeraXSession.load_from_file (s : ChimeraXSession)
    (parsed : Except Exn SessionFileData) : Bool × ChimeraXSession :=
  match parsed with
  | .error _ => (false, s)
  | .ok d =>
    (true,
     { s with
       models := d.models.getD []
       commands := d.commands.getD []
       session_file := d.session_file
       metadata := d.metadata.getD [] })

/-! ## chimerax_core.py — executable location and readiness polling -/

/-- The module-level mutable globals of chimerax_core.py:22-27 that the
executable-location functions touch. -/
structure CoreState where
  custom_chimerax_path : Option String
  cache_windows : Option String
  cache_macos : Option String
  cache_linux : Option String
deriving DecidableEq, Repr

/-- The globals as the module initializes them (chimerax_core.py:22-27). -/
def CoreState.init : CoreState :=
  { custom_chimerax_path := none, cache_windows := none,
    cache_macos := none, cache_linux := none }

/-- `set_chimerax_path` (chimerax_core.py:93-113).  `normpath` stands for
`os.path.normpath` and `pathExists` for `os.path.exists`, the two library
primitives the function consults. -/
def set_chimerax_path (normpath : String → String) (pathExists : String → Bool)
    (path : String) (st : CoreState) : String × CoreState :=
  if path = "" then ("Error: Empty path provided", st)
  else
    let p := normpath path
    if pathExists p = false then ("Error: Path does not exist: " ++ p, st)
    else ("ChimeraX path set to: " ++ p, { st with custom_chimerax_path := some p })

/-- The per-platform branch of `get_chimerax_executable_path`
(chimerax_core.py:124-134).  The three discovery strategies
(chimerax_core.py:136-301) are heavy filesystem/glob/registry searches whose
internals no claim depends on; they are abstracted as the function arguments
`winStrategy`/`macStrategy`/`linuxStrategy`, so that a theorem quantified over
them holds whatever discovery does. -/
def discoverPlatformPath (platform : String)
    (winStrategy macStrategy linuxStrategy : CoreState → Except Exn String × CoreState)
    (st : CoreState) : Except Exn String × CoreState :=
  if platform = "Windows" then winStrategy st
  else if platform = "Darwin" then macStrategy st
  else if platform = "Linux" then linuxStrategy st
  else (.error { msg := "Unsupported operating system: " ++ platform }, st)

/-- `get_chimerax_executable_path` (chimerax_core.py:115-134): a truthy
custom path short-circuits every discovery strategy and every filesystem
check; otherwise discovery is dispatched on the platform name. -/
def get_chimerax_executable_path (platform : String)
    (winStrategy macStrategy linuxStrategy : CoreState → Except Exn String × CoreState)
    (st : CoreState) : Except Exn String × CoreState :=
  match st.custom_chimerax_path with
  | some p =>
    if p = "" then discoverPlatformPath platform winStrategy macStrategy linuxStrategy st
    else (.ok p, st)
  | none => discoverPlatformPath platform winStrategy macStrategy linuxStrategy st

/-- One connect attempt of the `wait_for_port` polling loop
(chimerax_core.py:58-67): the socket either connects (`connect_ex == 0`),
reports failure, or raises a `socket.error`; `d` is the time the attempt
itself consumed, which `sock.settimeout(check_interval)` bounds by the
check interval. -/
inductive Attempt where
  | success (d : Nat)
  | fail (d : Nat)
  | sockErr (d : Nat)
deriving DecidableEq, Repr

/-- The time one attempt consumed. -/
def Attempt.dur : Attempt → Nat
  | .success d => d
  | .fail d => d
  | .sockErr d => d

/-- Whether the attempt connected. -/
def Attempt.isSuccess : Attempt → Bool
  | .success _ => true
  | _ => false

/-- The `while time.time() - start_time < timeout` loop of `wait_for_port`
(chimerax_core.py:57-73): `att n` is the outcome of the n-th connect attempt,
`t` the elapsed time at the loop-condition check, and each non-success
iteration sleeps exactly `I` after its attempt.  A raised `socket.error` is
caught and falls through to the same sleep as an ordinary failure.  `fuel`
bounds the recursion; `wait_for_port` supplies enough fuel for every run. -/
def waitLoop (att : Nat → Attempt) (T I : Nat) : Nat → Nat → Nat → Option (Bool × Nat)
  | 0, _, _ => none
  | fuel + 1, n, t =>
    if T ≤ t then some (false, t)
    else
      match att n with
      | .success d => some (true, t + d)
      | .fail d => waitLoop att T I fuel (n + 1) (t + d + I)
      | .sockErr d => waitLoop att T I fuel (n + 1) (t + d + I)

/-- `wait_for_port(port, timeout=T, check_interval=I)`
(chimerax_core.py:52-73): the result is `some (returned value, elapsed time
at return)`.  `T + 1` units of fuel suffice whenever `1 ≤ I`, since every
iteration advances elapsed time by at least one unit. -/
def wait_for_port (att : Nat → Attempt) (T I : Nat) : Option (Bool × Nat) :=
  waitLoop att T I (T + 1) 0 0

/-- Elapsed time at which the n-th loop iteration checks the condition. -/
def iterStart (att : Nat → Attempt) (I : Nat) : Nat → Nat
  | 0 => 0
  | n + 1 => iterStart att I n + (att n).dur + I

/-- Replace a raised `socket.error` by an ordinary failed attempt of the
same duration. -/
def desock : Attempt → Attempt
  | .sockErr d => .fail d
  | a => a

/-! ## chimerax_server.py — the command dispatcher -/

/-- The fixed `command_map` of registered local helper operations
(chimerax_server.py:80-103). -/
def registry : List String :=
  ["initialize_server_proxy", "set_xmlrpc_port", "is_chimerax_running",
   "get_chimerax_executable_path", "set_chimerax_path", "open_chimerax",
   "run_chimerax_command", "close_chimerax", "fetch_structure", "save_session",
   "set_visualization", "measure_distance", "get_session_status", "run_script",
   "analyze_protein_ligand", "get_chimerax_logs", "capture_chimerax_image",
   "view_saved_image", "create_molecular_image", "diagnose_chimerax",
   "debug_mac_path_issue", "debug_windows_path_issue"]

/-- Stringify one positional argument (chimerax_server.py:127-136): a string
containing a literal space is wrapped in double quotes, any other value is
passed through `str()`. -/
def argString (v : PyVal) : String :=
  match v with
  | .pystr s => if s.data.contains ' ' then "\"" ++ s ++ "\"" else s
  | v => v.toPyString

/-- Append one named argument (chimerax_server.py:141-151): `' {key} {value}'`
with a space-containing string value wrapped in double quotes. -/
def kwargString (k : String) (v : PyVal) : String :=
  match v with
  | .pystr s =>
    if s.data.contains ' ' then " " ++ k ++ " \"" ++ s ++ "\""
    else " " ++ k ++ " " ++ s
  | v => " " ++ k ++ " " ++ v.toPyString

/-- The pass-through command string `execute_command` assembles for an
operation name outside the registry (chimerax_server.py:122-151). -/
def chimeraxCommandString (name : String) (args : List PyVal)
    (kwargs : List (String × PyVal)) : String :=
  let withArgs :=
    if args.isEmpty then name
    else name ++ " " ++ spaceJoin (args.map argString)
  kwargs.foldl (fun acc kv => acc ++ kwargString kv.1 kv.2) withArgs

/-- Characters Python regards as the common whitespace class (space, tab,
line feed, carriage return); used to state the spec's quoting sentence. -/
def isPyWhitespace (c : Char) : Bool :=
  c = ' ' || c = '\t' || c = '\n' || c = '\r'

/-- Quote a value per the claim's wording, with the quoting trigger
(`q`, which class of strings gets wrapped) left as a parameter. -/
def specQuoteWith (q : String → Bool) (v : PyVal) : String :=
  match v with
  | .pystr s => if q s then "\"" ++ s ++ "\"" else s
  | v => v.toPyString

/-- The serialization exactly as the claim's sentence describes it: the
operation name, then the stringified positional arguments space-joined, then
each named argument appended as `key value`, with `q`-strings wrapped in
double quotes. -/
def specCommandStringWith (q : String → Bool) (name : String) (args : List PyVal)
    (kwargs : List (String × PyVal)) : String :=
  (if args.isEmpty then name
   else name ++ " " ++ spaceJoin (args.map (specQuoteWith q)))
  ++ String.join (kwargs.map fun kv => " " ++ kv.1 ++ " " ++ specQuoteWith q kv.2)

/-- The claim's serialization read literally: strings containing whitespace
are quoted. -/
def specCommandString (name : String) (args : List PyVal)
    (kwargs : List (String × PyVal)) : String :=
  specCommandStringWith (fun s => s.data.any isPyWhitespace) name args kwargs

/-- The external callees `execute_command` invokes, each allowed to raise:
the lazy module imports (chimerax_server.py:61-76), the registered helper
being dispatched (line 110), `is_chimerax_running` (line 156),
`open_chimerax` (line 158) and `run_chimerax_command` (line 165). -/
structure ServerOracle where
  importsOk : Except Exn Unit
  helper : String → List PyVal → List (String × PyVal) → Except Exn PyVal
  isRunning : Except Exn Bool
  openChimerax : Except Exn String
  runCommand : String → Except Exn PyVal

/-- `execute_command` (chimerax_server.py:44-178): the outer `try` catches
everything, the registry branch and the pass-through branch each catch their
own failures, so every path ends in `Except.ok` of a result or of a
descriptive error string. -/
def execute_command (o : ServerOracle) (name : String) (args? : Option (List PyVal))
    (kwargs? : Option (List (String × PyVal))) : Except Exn PyVal :=
  let args := args?.getD []
  let kwargs := kwargs?.getD []
  match o.importsOk with
  | .error e =>
    .ok (.pystr ("Error handling execute_command tool call: " ++ e.msg))
  | .ok _ =>
    if registry.contains name then
      match o.helper name args kwargs with
      | .ok v => .ok v
      | .error e =>
        .ok (.pystr ("Error executing Python function " ++ name ++ ": " ++ e.msg))
    else
      let cmd := chimeraxCommandString name args kwargs
      match o.isRunning with
      | .error e =>
        .ok (.pystr ("Error executing direct ChimeraX command: " ++ e.msg))
      | .ok true =>
        match o.runCommand cmd with
        | .ok v => .ok v
        | .error e =>
          .ok (.pystr ("Error executing direct ChimeraX command: " ++ e.msg))
      | .ok false =>
        match o.openChimerax with
        | .error e =>
          .ok (.pystr ("Error executing direct ChimeraX command: " ++ e.msg))
        | .ok openRes =>
          if strContains openRes "Error" then
            .ok (.pystr ("Failed to start ChimeraX: " ++ openRes))
          else
            match o.runCommand cmd with
            | .ok v => .ok v
            | .error e =>
              .ok (.pystr ("Error executing direct ChimeraX command: " ++ e.msg))

/-! ## chimerax_tools.py — the launcher -/

/-- State `open_chimerax` mutates: the session record and how many child
processes it has spawned. -/
structure LaunchWorld where
  session : ChimeraXSession
  spawns : Nat
deriving DecidableEq, Repr

/-- The environment of one `open_chimerax` call: the host platform, the
outcome of each external primitive it may invoke (each allowed to raise),
and the clock/version data `ChimeraXSession.start` snapshots. -/
structure LaunchOracle where
  platform : String
  isRunningE : Except Exn Bool
  initProxy : Except Exn Unit
  getPath : Except Exn String
  spawnWindows : Except Exn Unit
  spawnWindowsFallback : Except Exn Unit
  spawnMac : Except Exn Unit
  spawnLinux : Except Exn Unit
  portReady : Except Exn Bool
  versionCall : Except Exn String
  now : Nat
  platformVersion : String
  pythonVersion : String

/-- Python truthiness of the optional `port` argument (`if port:`). -/
def optPortTruthy : Option Nat → Bool
  | none => false
  | some p => p ≠ 0

/-- The platform-specific spawn step of `open_chimerax`
(chimerax_tools.py:67-148): Windows tries a direct detached `Popen` and falls
back to a shell `start` command if that raises; macOS and Linux each make one
spawn attempt.  A successful spawn increments the spawn counter; a raise
propagates to the enclosing `except`. -/
def spawnStep (o : LaunchOracle) (w : LaunchWorld) : Except Exn LaunchWorld :=
  if o.platform = "Windows" then
    match o.spawnWindows with
    | .ok _ => .ok { w with spawns := w.spawns + 1 }
    | .error _ =>
      match o.spawnWindowsFallback with
      | .ok _ => .ok { w with spawns := w.spawns + 1 }
      | .error e => .error e
  else if o.platform = "Darwin" then
    match o.spawnMac with
    | .ok _ => .ok { w with spawns := w.spawns + 1 }
    | .error e => .error e
  else
    match o.spawnLinux with
    | .ok _ => .ok { w with spawns := w.spawns + 1 }
    | .error e => .error e

/-- The inner `try` of `open_chimerax` (chimerax_tools.py:56-187): resolve
the executable, spawn, wait for the port, verify with a `version` call; any
raise inside it becomes the returned `"Error starting ChimeraX: ..."`. -/
def launchPart (o : LaunchOracle) (port : Option Nat) (w : LaunchWorld) :
    Except Exn String × LaunchWorld :=
  match o.getPath with
  | .error e => (.ok ("Error starting ChimeraX: " ++ e.msg), w)
  | .ok _bin =>
    match spawnStep o w with
    | .error e => (.ok ("Error starting ChimeraX: " ++ e.msg), w)
    | .ok w1 =>
      match o.portReady with
      | .error e => (.ok ("Error starting ChimeraX: " ++ e.msg), w1)
      | .ok true =>
        match o.versionCall with
        | .ok _v =>
          (.ok "ChimeraX started with remote control enabled",
           { w1 with
             session := w1.session.start port o.now o.platform
               o.platformVersion o.pythonVersion })
        | .error e =>
          (.ok ("ChimeraX started, but not yet responsive. Wait a few seconds before sending commands. Error: " ++ e.msg), w1)
      | .ok false =>
        (.ok "ChimeraX started, but the XML-RPC server is not responding. Try again or start ChimeraX manually.", w1)

/-- `open_chimerax` (chimerax_tools.py:21-195).  The liveness check sits in
its own `try` whose failure leaves `is_running = False`; a truthy port
rebuilds the proxy before the inner launch `try`; the outermost `except`
turns any remaining raise into the returned `"Critical error ..."` string. -/
def open_chimerax (o : LaunchOracle) (port : Option Nat) (w : LaunchWorld) :
    Except Exn String × LaunchWorld :=
  let is_running := match o.isRunningE with | .ok b => b | .error _ => false
  if is_running then
    let w2 :=
      if w.session.active then w
      else { w with
             session := w.session.start port o.now o.platform
               o.platformVersion o.pythonVersion }
    (.ok "ChimeraX is already running with remote control enabled", w2)
  else
    match (if optPortTruthy port then o.initProxy else .ok ()) with
    | .error e =>
      (.ok ("Critical error in open_chimerax: " ++ e.msg ++ ". See logs for details."), w)
    | .ok _ => launchPart o port w

/-! ## chimerax_tools.py — remote command execution with log capture -/

/-- The remote application's observable state: its log buffer and the
(shared, local) filesystem keyed by file name. -/
structure RemoteState where
  log : String
  fs : List (String × String)
deriving DecidableEq, Repr

/-- Modelled from the spec: the controlled application's command execution is
not part of this repository, so its log primitives are taken from the spec's
description — "the remote protocol exposes no direct return-current-log call,
only file-based save/open/clear primitives".  `log save f` writes the buffer
to file `f`, `log clear` empties the buffer, `log open f` reopens file `f`
into the log (appending its contents), and any other command appends the log
output `out cmd` it generates to the buffer and returns `res cmd`. -/
def remoteRun (out res : String → String) (st : RemoteState) (cmd : String) :
    String × RemoteState :=
  if cmd = "log clear" then (res cmd, { st with log := "" })
  else if strStartsWith cmd "log save " then
    (res cmd, { st with fs := assocSet st.fs (strDrop cmd 9) st.log })
  else if strStartsWith cmd "log open " then
    (res cmd, { st with log := st.log ++ ((assocGet st.fs (strDrop cmd 9)).getD "") })
  else (res cmd, { st with log := st.log ++ out cmd })

/-- Whether a command is one of the log-control primitives themselves. -/
def isLogControlCmd (c : String) : Bool :=
  c = "log clear" || strStartsWith c "log save " || strStartsWith c "log open "

/-- `tempfile.gettempdir()` of the host, an arbitrary fixed directory. -/
def tempDir : String := "/tmp"

/-- chimerax_tools.py:234 — where the pre-existing log is parked. -/
def prev_log_file : String := tempDir ++ "/chimerax_prev_log.txt"

/-- chimerax_tools.py:250 — where the fresh per-command log is saved. -/
def cmd_log_file : String := tempDir ++ "/chimerax_cmd_log.txt"

/-- chimerax_tools.py:274 — the staging copy used to restore the log. -/
def prev_log_file_temp : String := tempDir ++ "/chimerax_prev_log_temp.txt"

/-- The state `run_chimerax_command` reads and writes: the remote
application (log and shared filesystem) and the session record. -/
structure ToolsWorld where
  remote : RemoteState
  session : ChimeraXSession
deriving DecidableEq, Repr

/-- The environment of one `run_chimerax_command` call: whether the XML-RPC
server currently answers (`alive`), the log output and return value each
remote command produces, the launcher's returned message and the post-start
liveness for the `auto_start` path, and the clock. -/
structure ToolsOracle where
  alive : Bool
  out : String → String
  res : String → String
  openMsg : String
  aliveAfterStart : Bool
  now : Nat

/-- `is_chimerax_running` (chimerax_core.py:75-91): issues the trivial
`version` probe; a live server executes it (logging whatever it logs), a dead
one raises before executing anything, which the function catches and reports
as `false`. -/
def is_chimerax_running (o : ToolsOracle) (alive : Bool) (w : ToolsWorld) :
    Bool × ToolsWorld :=
  if alive then
    (true, { w with remote := (remoteRun o.out o.res w.remote "version").2 })
  else (false, w)

/-- What `run_chimerax_command` returns: a bare string (result or error
message), or the `{"result": ..., "log": ...}` dict of the capture path. -/
inductive ToolsRet where
  | str (s : String)
  | withLog (result : String) (log : String)
deriving DecidableEq, Repr

/-- The command-execution `try` of `run_chimerax_command`
(chimerax_tools.py:229-291): optional save/clear prologue, session
recording, the command itself, then the save/read/restore epilogue of the
log-capture choreography. -/
def execPart (o : ToolsOracle) (c : String) (capture_log : Bool) (w : ToolsWorld) :
    ToolsRet × ToolsWorld :=
  let rem0 :=
    if capture_log then
      (remoteRun o.out o.res
        (remoteRun o.out o.res w.remote ("log save " ++ prev_log_file)).2
        "log clear").2
    else w.remote
  let sess1 := w.session.record_command c o.now
  let run := remoteRun o.out o.res rem0 c
  let result := run.1
  let rem1 := run.2
  if capture_log then
    let rem2 := (remoteRun o.out o.res rem1 ("log save " ++ cmd_log_file)).2
    let log_content := (assocGet rem2.fs cmd_log_file).getD ""
    let rem3 := { rem2 with fs := assocDel rem2.fs cmd_log_file }
    if (assocGet rem3.fs prev_log_file).isSome then
      let rem4 := (remoteRun o.out o.res rem3 "log clear").2
      let prev := (assocGet rem4.fs prev_log_file).getD ""
      let rem5 := { rem4 with fs := assocSet rem4.fs prev_log_file_temp prev }
      let rem6 := (remoteRun o.out o.res rem5 ("log open " ++ prev_log_file_temp)).2
      let rem7 :=
        { rem6 with fs := assocDel (assocDel rem6.fs prev_log_file) prev_log_file_temp }
      (.withLog result log_content, { remote := rem7, session := sess1 })
    else (.withLog result log_content, { remote := rem3, session := sess1 })
  else (.str result, { remote := rem1, session := sess1 })

/-- The liveness/auto-start preamble of `run_chimerax_command`
(chimerax_tools.py:212-227).  The launcher callee is abstracted by the
message it returns (`o.openMsg`); its own state effects are outside this
function's claims. -/
def runCommandBody (o : ToolsOracle) (c : String) (auto_start capture_log : Bool)
    (w : ToolsWorld) : ToolsRet × ToolsWorld :=
  let check1 := is_chimerax_running o o.alive w
  if check1.1 then execPart o c capture_log check1.2
  else if auto_start then
    if strContains o.openMsg "Error" then
      (.str ("Failed to auto-start ChimeraX: " ++ o.openMsg), check1.2)
    else
      let check2 := is_chimerax_running o o.aliveAfterStart check1.2
      if check2.1 then execPart o c capture_log check2.2
      else
        (.str "Error: ChimeraX failed to start properly. Please start it manually with open_chimerax() first.", check2.2)
  else
    (.str "Error: ChimeraX is not running. Please start it with open_chimerax() first or set auto_start=True.", check1.2)

/-- `run_chimerax_command` (chimerax_tools.py:197-297): the argument guard
rejects anything that is not a non-empty string before any liveness check,
remote call or session write happens. -/
def run_chimerax_command (o : ToolsOracle) (command : PyVal)
    (auto_start capture_log : Bool) (w : ToolsWorld) : ToolsRet × ToolsWorld :=
  match command with
  | .pystr c =>
    if c = "" then (.str "Error: Command must be a non-empty string", w)
    else runCommandBody o c auto_start capture_log w
  | _ => (.str "Error: Command must be a non-empty string", w)

/-! ## Concrete instances used by the witness theorems -/

/-- A concrete exception. -/
def exnA : Exn := { msg := "boom" }

/-- A launch environment whose liveness probe answers true. -/
def launchOracleA : LaunchOracle :=
  { platform := "Linux", isRunningE := .ok true, initProxy := .ok (),
    getPath := .ok "/usr/bin/ChimeraX", spawnWindows := .ok (),
    spawnWindowsFallback := .ok (), spawnMac := .ok (), spawnLinux := .ok (),
    portReady := .ok true, versionCall := .ok "1.8", now := 7,
    platformVersion := "6.1", pythonVersion := "3.11" }

/-- A fresh launch world: inactive session, nothing spawned. -/
def launchWorldA : LaunchWorld := { session := ChimeraXSession.new, spawns := 0 }

/-- A concrete live remote environment. -/
def toolsOracleA : ToolsOracle :=
  { alive := true, out := fun c => "out[" ++ c ++ "]",
    res := fun c => "ok[" ++ c ++ "]",
    openMsg := "ChimeraX started with remote control enabled",
    aliveAfterStart := true, now := 3 }

/-- A concrete world with pre-existing log content. -/
def toolsWorldA : ToolsWorld :=
  { remote := { log := "PRE", fs := [] }, session := ChimeraXSession.new }

/-- A discovery strategy that always fails, for the override-precedence
witness. -/
def discoveryFailA : CoreState → Except Exn String × CoreState :=
  fun st => (.error exnA, st)

/-! ## Theorems -/

/-- C7: `stop` is a no-op on an inactive tracker; on an active tracker it
clears `active`, `start_time` and `port` while leaving the command and model
histories untouched; in particular after start → record_command "a" → stop
the history still holds "a" and the tracker is inactive. -/
theorem stop_preserves_history (s : ChimeraXSession) (now t0 t1 t2 : Nat)
    (p : Option Nat) (a b c : String) :
    (s.active = false → s.stop now = s) ∧
    (s.active = true →
      (s.stop now).active = false ∧ (s.stop now).start_time = none ∧
      (s.stop now).port = none ∧ (s.stop now).commands = s.commands ∧
      (s.stop now).models = s.models ∧
      (s.stop now).session_file = s.session_file ∧
      (s.stop now).last_activity = s.last_activity) ∧
    ((((ChimeraXSession.new.start p t0 a b c).record_command "a" t1).stop t2).commands
        = [{ command := "a", timestamp := t1 }] ∧
     (((ChimeraXSession.new.start p t0 a b c).record_command "a" t1).stop t2).active
        = false) := by
  refine ⟨fun h => ?_, fun h => ?_, ?_, ?_⟩
  · simp [ChimeraXSession.stop, h]
  · simp [ChimeraXSession.stop, h]
  · simp [ChimeraXSession.new, ChimeraXSession.start, ChimeraXSession.record_command,
      ChimeraXSession.stop]
  · simp [ChimeraXSession.new, ChimeraXSession.start, ChimeraXSession.record_command,
      ChimeraXSession.stop]

/-- C8: a successful load restores only models, commands, session-file path
and metadata; `active`, `start_time` and `port` are never taken from the
file, so a fresh tracker stays inactive, whatever the file recorded; a
failed parse changes nothing and returns false. -/
theorem load_never_restores_liveness (d : SessionFileData) (s : ChimeraXSession)
    (e : Exn) :
    (s.load_from_file (Except.ok d)).1 = true ∧
    (s.load_from_file (Except.ok d)).2.active = s.active ∧
    (s.load_from_file (Except.ok d)).2.start_time = s.start_time ∧
    (s.load_from_file (Except.ok d)).2.port = s.port ∧
    (s.load_from_file (Except.ok d)).2.models = d.models.getD [] ∧
    (s.load_from_file (Except.ok d)).2.commands = d.commands.getD [] ∧
    (s.load_from_file (Except.ok d)).2.session_file = d.session_file ∧
    (s.load_from_file (Except.ok d)).2.metadata = d.metadata.getD [] ∧
    (ChimeraXSession.new.load_from_file (Except.ok d)).2.active = false ∧
    s.load_from_file (Except.error e) = (false, s) := by
  simp [ChimeraXSession.load_from_file, ChimeraXSession.new]

/-- C9: `run_chimerax_command` rejects an empty string or a non-string
before any liveness check, remote call or session write: the result is the
fixed error string and the world is returned unchanged, for every
environment. -/
theorem empty_command_rejected_early (o : ToolsOracle) (command : PyVal)
    (auto_start capture_log : Bool) (w : ToolsWorld)
    (h : command.isStr = false ∨ command = PyVal.pystr "") :
    run_chimerax_command o command auto_start capture_log w
      = (ToolsRet.str "Error: Command must be a non-empty string", w) := by
  cases command with
  | pystr s =>
    rcases h with h | h
    · simp [PyVal.isStr] at h
    · simp only [PyVal.pystr.injEq] at h
      simp [run_chimerax_command, h]
  | pynone => simp [run_chimerax_command]
  | pybool b => simp [run_chimerax_command]
  | pyint n => simp [run_chimerax_command]

/-- C9 witness: the guard at the concrete empty-string input. -/
theorem empty_command_rejected_early_witness :
    run_chimerax_command toolsOracleA (PyVal.pystr "") false false toolsWorldA
      = (ToolsRet.str "Error: Command must be a non-empty string", toolsWorldA) :=
  empty_command_rejected_early toolsOracleA (PyVal.pystr "") false false toolsWorldA
    (Or.inr rfl)

/-- C10: `set_chimerax_path` is atomic on failure: an empty argument or a
non-existing (normalized) path returns an error string beginning with
"Error" and leaves the stored override unchanged; only an existing path
updates the override, to the OS-normalized form. -/
theorem set_path_atomic_on_failure (normpath : String → String)
    (pathExists : String → Bool) (path : String) (st : CoreState) :
    (path = "" →
      set_chimerax_path normpath pathExists path st = ("Error: Empty path provided", st)) ∧
    (pathExists (normpath path) = false →
      (set_chimerax_path normpath pathExists path st).2 = st ∧
      ∃ rest, (set_chimerax_path normpath pathExists path st).1 = "Error" ++ rest) ∧
    (path ≠ "" → pathExists (normpath path) = true →
      set_chimerax_path normpath pathExists path st
        = ("ChimeraX path set to: " ++ normpath path,
           { st with custom_chimerax_path := some (normpath path) })) := by
  refine ⟨fun h => ?_, fun h => ?_, fun h1 h2 => ?_⟩
  · simp [set_chimerax_path, h]
  · by_cases hp : path = ""
    · refine ⟨by simp [set_chimerax_path, hp], ": Empty path provided", ?_⟩
      have : ("Error: Empty path provided" : String) = "Error" ++ ": Empty path provided" := by
        decide
      simp [set_chimerax_path, hp, this]
    · refine ⟨by simp [set_chimerax_path, hp, h], ": Path does not exist: " ++ normpath path, ?_⟩
      have h1 : (set_chimerax_path normpath pathExists path st).1
          = "Error: Path does not exist: " ++ normpath path := by
        simp [set_chimerax_path, hp, h]
      rw [h1]
      apply String.ext
      simp [String.data_append]
  · simp [set_chimerax_path, h1, h2]

/-- C4: once `set_chimerax_path` has stored an override that existed at
set-time, `get_chimerax_executable_path` returns it unchanged for every
platform and every behaviour of the discovery strategies (none is invoked)
and without consulting the filesystem at all — the `pathExists` predicate
does not even occur in the lookup.  The hypothesis `hnorm` records the
`os.path.normpath` guarantee that normalizing a non-empty path never yields
the empty (falsy) string. -/
theorem override_precedence (normpath : String → String)
    (pathExists : String → Bool) (path : String) (st : CoreState) (platform : String)
    (winS macS linS : CoreState → Except Exn String × CoreState)
    (hne : path ≠ "") (hnorm : normpath path ≠ "")
    (hex : pathExists (normpath path) = true) :
    (set_chimerax_path normpath pathExists path st).2.custom_chimerax_path
        = some (normpath path) ∧
    get_chimerax_executable_path platform winS macS linS
        (set_chimerax_path normpath pathExists path st).2
      = (Except.ok (normpath path), (set_chimerax_path normpath pathExists path st).2) := by
  have hset : (set_chimerax_path normpath pathExists path st).2
      = { st with custom_chimerax_path := some (normpath path) } := by
    simp [set_chimerax_path, hne, hex]
  rw [hset]
  exact ⟨rfl, by simp [get_chimerax_executable_path, hnorm]⟩

/-- C4 witness: override precedence at a concrete path, with discovery
strategies that would fail if ever consulted. -/
theorem override_precedence_witness :
    (set_chimerax_path id (fun _ => true) "/opt/ChimeraX" CoreState.init).2.custom_chimerax_path
        = some "/opt/ChimeraX" ∧
    get_chimerax_executable_path "Linux" discoveryFailA discoveryFailA discoveryFailA
        (set_chimerax_path id (fun _ => true) "/opt/ChimeraX" CoreState.init).2
      = (Except.ok "/opt/ChimeraX",
         (set_chimerax_path id (fun _ => true) "/opt/ChimeraX" CoreState.init).2) :=
  override_precedence id (fun _ => true) "/opt/ChimeraX" CoreState.init "Linux"
    discoveryFailA discoveryFailA discoveryFailA (by decide) (by decide) rfl

/-- C3: when the liveness check answers true, `open_chimerax` spawns
nothing, marks the session active when it was not already (leaving an
already-active session untouched), and returns the already-running message;
hence a second launch right after the first spawns nothing either. -/
theorem launch_idempotent_when_alive (o : LaunchOracle) (port : Option Nat)
    (w : LaunchWorld) (h : o.isRunningE = Except.ok true) :
    open_chimerax o port w
      = (Except.ok "ChimeraX is already running with remote control enabled",
         if w.session.active then w
         else { w with session := (w.session.start port o.now o.platform
                  o.platformVersion o.pythonVersion) }) ∧
    (open_chimerax o port w).2.spawns = w.spawns ∧
    (open_chimerax o port w).2.session.active = true ∧
    (open_chimerax o port (open_chimerax o port w).2).2.spawns = w.spawns := by
  have hmain : open_chimerax o port w
      = (Except.ok "ChimeraX is already running with remote control enabled",
         if w.session.active then w
         else { w with session := (w.session.start port o.now o.platform
                  o.platformVersion o.pythonVersion) }) := by
    simp [open_chimerax, h]
  have hspawn : (open_chimerax o port w).2.spawns = w.spawns := by
    rw [hmain]; by_cases hw : w.session.active <;> simp [hw]
  have hactive : (open_chimerax o port w).2.session.active = true := by
    rw [hmain]; by_cases hw : w.session.active <;> simp [hw, ChimeraXSession.start]
  refine ⟨hmain, hspawn, hactive, ?_⟩
  have hsecond : open_chimerax o port (open_chimerax o port w).2
      = (Except.ok "ChimeraX is already running with remote control enabled",
         (open_chimerax o port w).2) := by
    by_cases hw : w.session.active <;>
      simp [open_chimerax, h, hw, ChimeraXSession.start]
  rw [hsecond]
  exact hspawn

/-- C3 witness: the idempotent short-circuit at a concrete live
environment and fresh world. -/
theorem launch_idempotent_when_alive_witness :
    open_chimerax launchOracleA none launchWorldA
      = (Except.ok "ChimeraX is already running with remote control enabled",
         if launchWorldA.session.active then launchWorldA
         else { launchWorldA with
                session := (launchWorldA.session.start none launchOracleA.now
                  launchOracleA.platform launchOracleA.platformVersion
                  launchOracleA.pythonVersion) }) ∧
    (open_chimerax launchOracleA none launchWorldA).2.spawns = launchWorldA.spawns ∧
    (open_chimerax launchOracleA none launchWorldA).2.session.active = true ∧
    (open_chimerax launchOracleA none
        (open_chimerax launchOracleA none launchWorldA).2).2.spawns
      = launchWorldA.spawns :=
  launch_idempotent_when_alive launchOracleA none launchWorldA rfl

/-- C1: neither the dispatcher entry point nor the launcher ever lets a
raised exception escape: for every environment, operation name and argument
lists, `execute_command` returns a value, and `open_chimerax` returns a
status message, with every callee exception converted to returned data. -/
theorem dispatcher_launcher_return_data :
    (∀ (o : ServerOracle) (name : String) (args? : Option (List PyVal))
        (kwargs? : Option (List (String × PyVal))),
        ∃ v, execute_command o name args? kwargs? = Except.ok v) ∧
    (∀ (o : LaunchOracle) (port : Option Nat) (w : LaunchWorld),
        ∃ m w2, open_chimerax o port w = (Except.ok m, w2)) := by
  constructor
  · intro o name args? kwargs?
    simp only [execute_command]
    repeat' split
    all_goals exact ⟨_, rfl⟩
  · intro o port w
    simp only [open_chimerax, launchPart, spawnStep]
    repeat' split
    all_goals exact ⟨_, _, rfl⟩

/-- `String.join` distributes over cons. -/
theorem string_join_cons (a : String) (l : List String) :
    String.join (a :: l) = a ++ String.join l := by
  apply String.ext
  simp [String.join_eq, String.data_append]

/-- The dispatcher's positional-argument stringification is exactly the
spec's rule with quoting triggered by a literal space character. -/
theorem argString_eq (v : PyVal) :
    argString v = specQuoteWith (fun s => s.data.contains ' ') v := by
  cases v <;> rfl

/-- The dispatcher's named-argument fragment is exactly `" key value"` with
the value quoted when it is a string containing a literal space. -/
theorem kwargString_eq (k : String) (v : PyVal) :
    kwargString k v = " " ++ k ++ " " ++ specQuoteWith (fun s => s.data.contains ' ') v := by
  cases v with
  | pystr s =>
    simp only [kwargString, specQuoteWith]
    by_cases hs : s.data.contains ' ' = true
    · rw [if_pos hs, if_pos hs]
      apply String.ext
      simp [String.data_append]
    · rw [if_neg hs, if_neg hs]
  | pynone => rfl
  | pybool b => rfl
  | pyint n => rfl

/-- Folding the named-argument fragments onto a prefix is the prefix
followed by their concatenation. -/
theorem kwargs_foldl_join (kwargs : List (String × PyVal)) (pre : String) :
    kwargs.foldl (fun acc kv => acc ++ kwargString kv.1 kv.2) pre
      = pre ++ String.join (kwargs.map fun kv => kwargString kv.1 kv.2) := by
  induction kwargs generalizing pre with
  | nil => simp [String.join]
  | cons kv rest ih =>
    simp only [List.foldl_cons, List.map_cons, string_join_cons]
    rw [ih, String.append_assoc]

/-- C2 counterexample: the claim quotes every string argument containing
whitespace, but the code checks only for a literal space, so the
tab-containing argument `"a\tb"` is serialized unquoted while the claim's
rule would quote it. -/
theorem quoting_whitespace_counterexample :
    chimeraxCommandString "open" [PyVal.pystr "a\tb"] [] = "open a\tb" ∧
    specCommandString "open" [PyVal.pystr "a\tb"] [] = "open \"a\tb\"" ∧
    chimeraxCommandString "open" [PyVal.pystr "a\tb"] []
      ≠ specCommandString "open" [PyVal.pystr "a\tb"] [] := by
  refine ⟨by decide, by decide, by decide⟩

/-- C2 amended: the dispatcher's pass-through serialization agrees with the
claim's rule once "containing whitespace" is read as "containing a literal
space character"; the claim's two example serializations hold as stated. -/
theorem quoting_space_only_amended (name : String) (args : List PyVal)
    (kwargs : List (String × PyVal)) :
    chimeraxCommandString name args kwargs
      = specCommandStringWith (fun s => s.data.contains ' ') name args kwargs ∧
    chimeraxCommandString "select" [] [("name", PyVal.pystr "chain A")]
      = "select name \"chain A\"" ∧
    chimeraxCommandString "style" [PyVal.pystr "protein"]
        [("representation", PyVal.pystr "cartoon")]
      = "style protein representation cartoon" := by
  refine ⟨?_, by decide, by decide⟩
  simp only [chimeraxCommandString, specCommandStringWith]
  rw [kwargs_foldl_join,
    (funext argString_eq :
      argString = fun v => specQuoteWith (fun s => s.data.contains ' ') v),
    (funext fun kv => kwargString_eq kv.1 kv.2 :
      (fun kv : String × PyVal => kwargString kv.1 kv.2)
        = fun kv => " " ++ kv.1 ++ " " ++ specQuoteWith (fun s => s.data.contains ' ') kv.2)]

/-- Looking up the key just set returns the value just stored. -/
theorem assocGet_set_self {α : Type} (m : List (String × α)) (k : String) (v : α) :
    assocGet (assocSet m k v) k = some v := by
  induction m with
  | nil => simp [assocSet, assocGet]
  | cons kv rest ih =>
    obtain ⟨k', v'⟩ := kv
    by_cases h : k' = k <;> simp [assocSet, assocGet, h, ih]

/-- Setting one key leaves lookups of a different key unchanged. -/
theorem assocGet_set_ne {α : Type} (m : List (String × α)) (k k2 : String) (v : α)
    (hne : k ≠ k2) : assocGet (assocSet m k v) k2 = assocGet m k2 := by
  have hne2 : ¬(k2 = k) := fun he => hne he.symm
  induction m with
  | nil => simp [assocSet, assocGet, hne, hne2]
  | cons kv rest ih =>
    obtain ⟨k', v'⟩ := kv
    by_cases h : k' = k
    · subst h
      simp [assocSet, assocGet, hne, hne2]
    · by_cases h2 : k' = k2 <;> simp [assocSet, assocGet, h, h2, hne, hne2, ih]

/-- Deleting one key leaves lookups of a different key unchanged. -/
theorem assocGet_del_ne {α : Type} (m : List (String × α)) (k k2 : String)
    (hne : k2 ≠ k) : assocGet (assocDel m k) k2 = assocGet m k2 := by
  have hkk2 : ¬(k = k2) := fun he => hne he.symm
  induction m with
  | nil => rfl
  | cons kv rest ih =>
    obtain ⟨k', v'⟩ := kv
    by_cases h : k' = k
    · subst h
      simpa [assocDel, assocGet, hkk2] using ih
    · by_cases h2 : k' = k2
      · subst h2
        simp [assocDel, assocGet, h]
      · simpa [assocDel, assocGet, h, h2] using ih

/-- The `version` probe is an ordinary command: it appends its own output. -/
theorem remoteRun_version (out res : String → String) (st : RemoteState) :
    remoteRun out res st "version"
      = (res "version", { st with log := st.log ++ out "version" }) := by
  unfold remoteRun
  rw [if_neg (by decide), if_neg (by decide), if_neg (by decide)]

/-- `log clear` empties the buffer. -/
theorem remoteRun_clear (out res : String → String) (st : RemoteState) :
    remoteRun out res st "log clear" = (res "log clear", { st with log := "" }) := by
  unfold remoteRun
  rw [if_pos rfl]

/-- Saving to the parked-log file writes the buffer there. -/
theorem remoteRun_save_prev (out res : String → String) (st : RemoteState) :
    remoteRun out res st ("log save " ++ prev_log_file)
      = (res ("log save " ++ prev_log_file),
         { st with fs := assocSet st.fs prev_log_file st.log }) := by
  unfold remoteRun
  rw [if_neg (by decide), if_pos (by decide),
    (by decide : strDrop ("log save " ++ prev_log_file) 9 = prev_log_file)]

/-- Saving to the per-command log file writes the buffer there. -/
theorem remoteRun_save_cmd (out res : String → String) (st : RemoteState) :
    remoteRun out res st ("log save " ++ cmd_log_file)
      = (res ("log save " ++ cmd_log_file),
         { st with fs := assocSet st.fs cmd_log_file st.log }) := by
  unfold remoteRun
  rw [if_neg (by decide), if_pos (by decide),
    (by decide : strDrop ("log save " ++ cmd_log_file) 9 = cmd_log_file)]

/-- Reopening the staging file appends its contents to the buffer. -/
theorem remoteRun_open_prevtemp (out res : String → String) (st : RemoteState) :
    remoteRun out res st ("log open " ++ prev_log_file_temp)
      = (res ("log open " ++ prev_log_file_temp),
         { st with log := st.log ++ ((assocGet st.fs prev_log_file_temp).getD "") }) := by
  unfold remoteRun
  rw [if_neg (by decide), if_neg (by decide), if_pos (by decide),
    (by decide : strDrop ("log open " ++ prev_log_file_temp) 9 = prev_log_file_temp)]

/-- An ordinary command (none of the log primitives) appends its output. -/
theorem remoteRun_ordinary (out res : String → String) (c : String)
    (h : isLogControlCmd c = false) (st : RemoteState) :
    remoteRun out res st c = (res c, { st with log := st.log ++ out c }) := by
  simp only [isLogControlCmd, Bool.or_eq_false_iff, decide_eq_false_iff_not] at h
  obtain ⟨⟨h1, h2⟩, h3⟩ := h
  unfold remoteRun
  rw [if_neg h1, if_neg (by simp [h2]), if_neg (by simp [h3])]

/-- The parked log survives writing and deleting the per-command log file. -/
theorem assocGet_prev_after_cleanup (F : List (String × String)) (a b : String) :
    assocGet (assocDel (assocSet (assocSet F prev_log_file a) cmd_log_file b) cmd_log_file)
        prev_log_file = some a := by
  rw [assocGet_del_ne _ _ _ (by decide), assocGet_set_ne _ _ _ _ (by decide),
    assocGet_set_self]

/-- C6: with log capture enabled against a live target, the
save/clear/execute/save/restore choreography returns the command's result
together with exactly the log output generated in that command's execution
window, records the command in the session, and leaves the target's log
buffer holding the content it had when the choreography began (the pre-call
buffer, to which only the pre-check liveness probe's own output had been
appended) — the pre-existing content is an initial segment of the final
buffer. -/
theorem log_capture_round_trip (o : ToolsOracle) (c : String) (auto_start : Bool)
    (w : ToolsWorld) (halive : o.alive = true) (hc : isLogControlCmd c = false)
    (hne : c ≠ "") :
    (run_chimerax_command o (PyVal.pystr c) auto_start true w).1
      = ToolsRet.withLog (o.res c) (o.out c) ∧
    (run_chimerax_command o (PyVal.pystr c) auto_start true w).2.remote.log
      = w.remote.log ++ o.out "version" ∧
    (∃ tail, (run_chimerax_command o (PyVal.pystr c) auto_start true w).2.remote.log
      = w.remote.log ++ tail) ∧
    (run_chimerax_command o (PyVal.pystr c) auto_start true w).2.session
      = w.session.record_command c o.now := by
  refine ⟨?_, ?_, ?_, ?_⟩
  · simp [run_chimerax_command, runCommandBody, is_chimerax_running, execPart,
      halive, hne, remoteRun_version, remoteRun_clear, remoteRun_save_prev,
      remoteRun_save_cmd, remoteRun_open_prevtemp,
      remoteRun_ordinary o.out o.res c hc, assocGet_set_self,
      assocGet_prev_after_cleanup, String.empty_append]
  · simp [run_chimerax_command, runCommandBody, is_chimerax_running, execPart,
      halive, hne, remoteRun_version, remoteRun_clear, remoteRun_save_prev,
      remoteRun_save_cmd, remoteRun_open_prevtemp,
      remoteRun_ordinary o.out o.res c hc, assocGet_set_self,
      assocGet_prev_after_cleanup, String.empty_append]
  · refine ⟨o.out "version", ?_⟩
    simp [run_chimerax_command, runCommandBody, is_chimerax_running, execPart,
      halive, hne, remoteRun_version, remoteRun_clear, remoteRun_save_prev,
      remoteRun_save_cmd, remoteRun_open_prevtemp,
      remoteRun_ordinary o.out o.res c hc, assocGet_set_self,
      assocGet_prev_after_cleanup, String.empty_append]
  · simp [run_chimerax_command, runCommandBody, is_chimerax_running, execPart,
      halive, hne, remoteRun_version, remoteRun_clear, remoteRun_save_prev,
      remoteRun_save_cmd, remoteRun_open_prevtemp,
      remoteRun_ordinary o.out o.res c hc, assocGet_set_self,
      assocGet_prev_after_cleanup, String.empty_append]

/-- C6 witness: the log-capture round trip at a concrete live environment
with pre-existing log content. -/
theorem log_capture_round_trip_witness :
    (run_chimerax_command toolsOracleA (PyVal.pystr "color red") false true toolsWorldA).1
      = ToolsRet.withLog (toolsOracleA.res "color red") (toolsOracleA.out "color red") ∧
    (run_chimerax_command toolsOracleA (PyVal.pystr "color red") false true
        toolsWorldA).2.remote.log
      = toolsWorldA.remote.log ++ toolsOracleA.out "version" ∧
    (∃ tail, (run_chimerax_command toolsOracleA (PyVal.pystr "color red") false true
        toolsWorldA).2.remote.log
      = toolsWorldA.remote.log ++ tail) ∧
    (run_chimerax_command toolsOracleA (PyVal.pystr "color red") false true
        toolsWorldA).2.session
      = toolsWorldA.session.record_command "color red" toolsOracleA.now :=
  log_capture_round_trip toolsOracleA "color red" false toolsWorldA rfl
    (by decide) (by decide)

/-- Starting the polling loop at the next attempt index is running it on the
shifted attempt sequence. -/
theorem waitLoop_shift (att : Nat → Attempt) (T I : Nat) :
    ∀ (fuel n t : Nat),
      waitLoop att T I fuel (n + 1) t = waitLoop (fun k => att (k + 1)) T I fuel n t := by
  intro fuel
  induction fuel with
  | zero => intro n t; rfl
  | succ fuel ih =>
    intro n t
    simp only [waitLoop]
    by_cases hT : T ≤ t
    · simp [hT]
    · cases h : att (n + 1) <;> simp [hT, h, ih]

/-- When no attempt ever connects and every attempt stays within the socket
timeout `I`, the loop returns false at an elapsed time in `[T, T + 2I)`. -/
theorem waitLoop_timeout (att : Nat → Attempt) (T I : Nat)
    (hI : 1 ≤ I) (hsucc : ∀ m, (att m).isSuccess = false)
    (hdur : ∀ m, (att m).dur ≤ I) :
    ∀ (fuel n t : Nat), t < T → T < t + fuel →
      ∃ e, waitLoop att T I fuel n t = some (false, e) ∧ T ≤ e ∧ e < T + 2 * I := by
  intro fuel
  induction fuel with
  | zero =>
    intro n t ht hf
    exfalso
    omega
  | succ fuel ih =>
    intro n t ht hf
    have hnle : ¬ (T ≤ t) := by omega
    cases h : att n with
    | success d =>
      have := hsucc n
      rw [h] at this
      simp [Attempt.isSuccess] at this
    | fail d =>
      have hd : d ≤ I := by have := hdur n; rw [h] at this; simpa [Attempt.dur] using this
      by_cases h2 : T ≤ t + d + I
      · cases fuel with
        | zero => exfalso; omega
        | succ fuel2 =>
          refine ⟨t + d + I, ?_, h2, by omega⟩
          simp [waitLoop, hnle, h, h2]
      · obtain ⟨e, he, he1, he2⟩ := ih (n + 1) (t + d + I) (by omega) (by omega)
        refine ⟨e, ?_, he1, he2⟩
        simp [waitLoop, hnle, h, he]
    | sockErr d =>
      have hd : d ≤ I := by have := hdur n; rw [h] at this; simpa [Attempt.dur] using this
      by_cases h2 : T ≤ t + d + I
      · cases fuel with
        | zero => exfalso; omega
        | succ fuel2 =>
          refine ⟨t + d + I, ?_, h2, by omega⟩
          simp [waitLoop, hnle, h, h2]
      · obtain ⟨e, he, he1, he2⟩ := ih (n + 1) (t + d + I) (by omega) (by omega)
        refine ⟨e, ?_, he1, he2⟩
        simp [waitLoop, hnle, h, he]

/-- Each iteration advances elapsed time by at least the check interval. -/
theorem iterStart_ge (att : Nat → Attempt) (I : Nat) (hI : 1 ≤ I) :
    ∀ n, n ≤ iterStart att I n := by
  intro n
  induction n with
  | zero => simp [iterStart]
  | succ n ih => simp only [iterStart]; omega

/-- Peeling the first iteration off the elapsed-time recurrence. -/
theorem iterStart_shift (att : Nat → Attempt) (I : Nat) :
    ∀ N, iterStart att I (N + 1)
      = (att 0).dur + I + iterStart (fun k => att (k + 1)) I N := by
  intro N
  induction N with
  | zero => simp [iterStart]
  | succ N ih =>
    have h1 : iterStart att I (N + 1 + 1)
        = iterStart att I (N + 1) + (att (N + 1)).dur + I := rfl
    have h2 : iterStart (fun k => att (k + 1)) I (N + 1)
        = iterStart (fun k => att (k + 1)) I N + (att (N + 1)).dur + I := rfl
    rw [h1, h2, ih]
    omega

/-- The first connecting attempt makes the loop return true at the moment
that attempt completes. -/
theorem waitLoop_success (T I d : Nat) (hI : 1 ≤ I) :
    ∀ (N : Nat) (att : Nat → Attempt) (fuel t : Nat),
      (∀ k, k < N → (att k).isSuccess = false) →
      att N = Attempt.success d →
      t + iterStart att I N < T → N < fuel →
      waitLoop att T I fuel 0 t = some (true, t + iterStart att I N + d) := by
  intro N
  induction N with
  | zero =>
    intro att fuel t hpre hN ht hf
    cases fuel with
    | zero => exact absurd hf (by omega)
    | succ fuel2 =>
      have ht0 : ¬ (T ≤ t) := by simp [iterStart] at ht; omega
      simp [waitLoop, ht0, hN, iterStart]
  | succ N ih =>
    intro att fuel t hpre hN ht hf
    cases fuel with
    | zero => exact absurd hf (by omega)
    | succ fuel2 =>
      have ht0 : ¬ (T ≤ t) := by omega
      have h0 : (att 0).isSuccess = false := hpre 0 (by omega)
      cases ha : att 0 with
      | success d0 => rw [ha] at h0; simp [Attempt.isSuccess] at h0
      | fail d0 =>
        have hiter : iterStart att I (N + 1)
            = d0 + I + iterStart (fun k => att (k + 1)) I N := by
          rw [iterStart_shift]
          simp [ha, Attempt.dur]
        have hrec := ih (fun k => att (k + 1)) fuel2 (t + d0 + I)
          (fun k hk => hpre (k + 1) (by omega)) hN (by omega) (by omega)
        simp only [waitLoop, ht0, ite_false, if_neg ht0, ha]
        rw [waitLoop_shift, hrec, hiter]
        simp only [Option.some.injEq, Prod.mk.injEq, true_and]
        omega
      | sockErr d0 =>
        have hiter : iterStart att I (N + 1)
            = d0 + I + iterStart (fun k => att (k + 1)) I N := by
          rw [iterStart_shift]
          simp [ha, Attempt.dur]
        have hrec := ih (fun k => att (k + 1)) fuel2 (t + d0 + I)
          (fun k hk => hpre (k + 1) (by omega)) hN (by omega) (by omega)
        simp only [waitLoop, ht0, ite_false, if_neg ht0, ha]
        rw [waitLoop_shift, hrec, hiter]
        simp only [Option.some.injEq, Prod.mk.injEq, true_and]
        omega

/-- A raised socket error behaves exactly like an ordinary failed attempt of
the same duration: the loop result is unchanged. -/
theorem waitLoop_desock (att : Nat → Attempt) (T I : Nat) :
    ∀ fuel n t,
      waitLoop (fun k => desock (att k)) T I fuel n t = waitLoop att T I fuel n t := by
  intro fuel
  induction fuel with
  | zero => intro n t; rfl
  | succ fuel ih =>
    intro n t
    simp only [waitLoop]
    by_cases hT : T ≤ t
    · simp [hT]
    · cases h : att n with
      | success d => simp [hT, h, desock]
      | fail d =>
        simp [hT, h, desock]
        exact ih (n + 1) (t + d + I)
      | sockErr d =>
        simp [hT, h, desock]
        exact ih (n + 1) (t + d + I)

/-- C5 counterexample: with T = 5 and I = 2 and every connect attempt
failing only after consuming the full socket timeout (duration 2 ≤ I, as
`sock.settimeout(check_interval)` permits), the loop returns false at
elapsed time 8, which exceeds the claim's bound T + I = 7. -/
theorem readiness_bound_counterexample :
    wait_for_port (fun _ => Attempt.fail 2) 5 2 = some (false, 8) ∧
    ¬ (8 ≤ 5 + 2) :=
  ⟨by decide, by decide⟩

/-- C5 amended: when no connect attempt succeeds and each attempt's duration
is bounded by the socket timeout I, `wait_for_port` returns false at an
elapsed time no earlier than T and strictly earlier than T + 2I (the last
iteration may begin just before T and spend up to I connecting plus I
sleeping); a connect attempt that succeeds makes it return true immediately
at that attempt; and a raised socket error is treated exactly as a failed
attempt and retried, leaving the result unchanged. -/
theorem readiness_polling_amended (att : Nat → Attempt) (T I N d : Nat) :
    (1 ≤ T → 1 ≤ I → (∀ m, (att m).isSuccess = false) → (∀ m, (att m).dur ≤ I) →
      ∃ e, wait_for_port att T I = some (false, e) ∧ T ≤ e ∧ e < T + 2 * I) ∧
    (1 ≤ I → (∀ k, k < N → (att k).isSuccess = false) → att N = Attempt.success d →
      iterStart att I N < T →
      wait_for_port att T I = some (true, iterStart att I N + d)) ∧
    wait_for_port (fun k => desock (att k)) T I = wait_for_port att T I := by
  refine ⟨fun hT hI hsucc hdur => ?_, fun hI hpre hN ht => ?_, ?_⟩
  · exact waitLoop_timeout att T I hI hsucc hdur (T + 1) 0 0 (by omega) (by omega)
  · have hf : N < T + 1 := by
      have := iterStart_ge att I hI N
      omega
    have := waitLoop_success T I d hI N att (T + 1) 0 hpre hN (by omega) hf
    simpa [wait_for_port] using this
  · exact waitLoop_desock att T I (T + 1) 0 0
